import Mathlib

/-!
Verification of the real-time chat subsystem of the CampusConnect portal
(src/src/App.jsx, backed by the schema in src/supabase_schema.sql).

The client code is embedded shallowly: the relevant React handlers become
pure Lean functions over explicit table / cache state, the backing store
becomes lists of rows with the query semantics the client relies on
(filter, exact-single lookup, append-insert with generated ids), and the
realtime fan-out becomes functions from change events to cached lists.
Timestamps are integers (milliseconds), ids are strings or generated
naturals, and the JavaScript string primitives the code uses (default
array sort order, trim) are modelled directly on lists of characters.
-/

namespace CampusConnect

/-! ## JavaScript string primitives used by the source -/

/-- Lexicographic comparison of character lists by code unit, modelling the
default JavaScript string comparison used by Array.prototype.sort. -/
def codeLe : List Char → List Char → Bool
  | [], _ => true
  | _ :: _, [] => false
  | a :: as, b :: bs =>
    if a < b then true
    else if b < a then false
    else codeLe as bs

/-- JavaScript string less-or-equal on whole strings. -/
def jsLe (a b : String) : Bool := codeLe a.toList b.toList

/-- JavaScript String.prototype.trim: drop leading and trailing whitespace. -/
def jsTrim (s : String) : String :=
  String.mk (((s.toList.dropWhile Char.isWhitespace).reverse.dropWhile Char.isWhitespace).reverse)

/-! ## Data model (src/supabase_schema.sql) -/

/-- Profile role: the check constraint allows student or admin. -/
inductive Role
  | student
  | admin
deriving DecidableEq, Repr

/-- Room kind: the check constraint allows group, dm or anonymous. -/
inductive RoomType
  | group
  | dm
  | anonymous
deriving DecidableEq, Repr

/-- Row of the profiles table (the fields the chat subsystem reads). -/
structure Profile where
  id : String
  student_id : String
  full_name : String
  role : Role
  is_online : Bool
deriving DecidableEq, Repr

/-- Row of the rooms table. Ids are generated by the store; the schema puts
no uniqueness constraint on the name column. -/
structure Room where
  id : Nat
  name : String
  type : RoomType
deriving DecidableEq, Repr

/-- Row of the messages table. -/
structure Message where
  id : Nat
  room_id : Nat
  sender_id : String
  content : String
  is_anonymous : Bool
  created_at : Int
deriving DecidableEq, Repr

/-- Sender display fields joined into a cached chat message, as selected by
the profiles(full_name, student_id) embed of the message queries. -/
structure SenderInfo where
  full_name : String
  student_id : String
deriving DecidableEq, Repr

/-- Cached chat message as held in ChatPortal state: the row plus the
optional joined sender record (null when the sender profile is gone). -/
structure ChatMsg where
  msg : Message
  profiles : Option SenderInfo
deriving DecidableEq, Repr

/-! ## Anonymity policy (ChatMessage, src/src/App.jsx lines 659-693) -/

/-- Reveal decision of the ChatMessage component, line 668: the placeholder
is shown exactly when message.is_anonymous and not isAdmin and not
showRealNames; in every other case the true sender name is revealed. -/
def shouldRevealSender (is_anonymous isAdmin showRealNames : Bool) : Bool :=
  !(is_anonymous && !isAdmin && !showRealNames)

/-- Sender label rendered by ChatMessage, line 668. When the reveal
decision is negative the fixed placeholder is rendered; otherwise the
joined full name, with a JavaScript falsy fallback to Unknown when the
joined profile is absent or its name is the empty string. -/
def senderLabel (is_anonymous : Bool) (profile : Option SenderInfo)
    (isAdmin showRealNames : Bool) : String :=
  if is_anonymous && !isAdmin && !showRealNames then "Ghost User"
  else
    match profile with
    | some p => if p.full_name = "" then "Unknown" else p.full_name
    | none => "Unknown"

/-! ## Identity resolver (handleLogin, src/src/App.jsx lines 151-185) -/

/-- Derived 12-character hex block of the pseudo id, lines 166-170: encode
each character code in lowercase hex, concatenate, take the first 12
characters, pad on the right with the character 0 to length 12. -/
def safeHex (credential : String) : String :=
  let hex := (credential.toList.map (fun c => Nat.toDigits 16 c.toNat)).flatten
  let sliced := hex.take 12
  String.mk (sliced ++ List.replicate (12 - sliced.length) '0')

/-- Deterministic pseudo id for a first-time credential, line 171. -/
def pseudoId (credential : String) : String :=
  "00000000-0000-0000-0000-" ++ safeHex credential

/-- Profile row inserted for a first-time credential, lines 173-175: role is
admin exactly for the reserved credential admin123, is_online takes the
schema default false. -/
def createdProfile (name credential : String) : Profile :=
  { id := pseudoId credential
    student_id := credential
    full_name := name
    role := if credential = "admin123" then Role.admin else Role.student
    is_online := false }

/-- Lookup with .eq(student_id, c).single() semantics, lines 159-163: a row
is returned exactly when precisely one row matches. -/
def singleByStudentId (rows : List Profile) (c : String) : Option Profile :=
  match rows.filter (fun p => decide (p.student_id = c)) with
  | [p] => some p
  | _ => none

/-- Store-side insert into profiles: rejected (state unchanged) when it
would violate the primary key on id or the unique constraint on
student_id; the caller ignores the insert result, as the source does. -/
def insertProfile (rows : List Profile) (p : Profile) : List Profile :=
  if rows.any (fun q => q.id == p.id || q.student_id == p.student_id) then rows
  else rows ++ [p]

/-- Translation of handleLogin, lines 151-185: look the credential up by
student_id; when absent, insert the deterministically derived profile.
Returns the session id, the session isAdmin flag and the resulting
profiles table. -/
def handleLogin (name credential : String) (rows : List Profile) :
    String × Bool × List Profile :=
  match singleByStudentId rows credential with
  | some profile => (profile.id, credential = "admin123", rows)
  | none =>
    (pseudoId credential, credential = "admin123",
      insertProfile rows (createdProfile name credential))

/-! ## Room directory (startDM, src/src/App.jsx lines 784-795) -/

/-- Rooms table with the id generator of the store. -/
structure RoomsState where
  nextId : Nat
  rows : List Room
deriving DecidableEq, Repr

/-- Canonical direct-message room name, line 785: the two identity ids
sorted by the default JavaScript array sort and joined with a colon. -/
def dmRoomName (a b : String) : String :=
  if jsLe a b then a ++ ":" ++ b else b ++ ":" ++ a

/-- Lookup with .eq(name, n).single() semantics, line 786: a row is
returned exactly when precisely one row matches. -/
def singleRoomByName (rows : List Room) (n : String) : Option Room :=
  match rows.filter (fun r => decide (r.name = n)) with
  | [r] => some r
  | _ => none

/-- Store-side insert into rooms, line 790: the schema puts no uniqueness
constraint on the name, so the insert always succeeds and returns the row
with its generated id. -/
def insertRoom (s : RoomsState) (n : String) (t : RoomType) : Room × RoomsState :=
  let r : Room := { id := s.nextId, name := n, type := t }
  (r, { nextId := s.nextId + 1, rows := s.rows ++ [r] })

/-- Translation of startDM, lines 784-795: compute the canonical name, use
the existing room when the lookup returns one, otherwise insert a dm room
with that name. Returns the room made active and the resulting table. -/
def startDM (selfId otherId : String) (s : RoomsState) : Room × RoomsState :=
  let roomName := dmRoomName selfId otherId
  match singleRoomByName s.rows roomName with
  | some existing => (existing, s)
  | none => insertRoom s roomName RoomType.dm

/-! ## Live update fan-out (src/src/App.jsx lines 133-138, 732-744, 748-767) -/

/-- Rooms INSERT handler of the portal-updates channel, lines 134-137:
append the new row unless a cached row already carries its id. -/
def onRoomInsert (cache : List Room) (r : Room) : List Room :=
  if cache.any (fun x => x.id == r.id) then cache else cache ++ [r]

/-- Change event delivered on the profiles channel. -/
inductive ProfileEvent
  | insert (p : Profile)
  | update (p : Profile)
deriving DecidableEq, Repr

/-- Profile-status handler, lines 733-739: UPDATE replaces the matching
cached row in place by id, INSERT appends unconditionally. -/
def onProfileEvent (cache : List Profile) : ProfileEvent → List Profile
  | .update p => cache.map (fun q => if q.id = p.id then p else q)
  | .insert p => cache ++ [p]

/-- Lookup with .eq(id, i).single() semantics, line 758. -/
def singleProfileById (rows : List Profile) (i : String) : Option Profile :=
  match rows.filter (fun p => decide (p.id = i)) with
  | [p] => some p
  | _ => none

/-- Message INSERT handler of the room-scoped channel, lines 757-760:
resolve the sender display fields and append the joined message to the
cached list unconditionally. -/
def onMessageInsert (profilesTable : List Profile) (cache : List ChatMsg) (m : Message) :
    List ChatMsg :=
  cache ++ [{ msg := m,
              profiles := (singleProfileById profilesTable m.sender_id).map
                (fun p => { full_name := p.full_name, student_id := p.student_id }) }]

/-- A sequence of message inserts delivered by the fan-out, in delivery
order, merged into the cached list. -/
def deliverAll (profilesTable : List Profile) (cache : List ChatMsg) (ms : List Message) :
    List ChatMsg :=
  ms.foldl (onMessageInsert profilesTable) cache

/-! ## Message store (src/src/App.jsx lines 713-729, 773-782, 1418-1424) -/

/-- Messages table with the id generator of the store. -/
structure MsgState where
  nextId : Nat
  rows : List Message
deriving DecidableEq, Repr

/-- Store-side insert into messages: the row receives a generated id and
the creation timestamp now. -/
def insertMessage (s : MsgState) (roomId : Nat) (senderId content : String)
    (anon : Bool) (now : Int) : MsgState :=
  { nextId := s.nextId + 1
    rows := s.rows ++ [{ id := s.nextId, room_id := roomId, sender_id := senderId,
                         content := content, is_anonymous := anon, created_at := now }] }

/-- Observable outcome of one sendMessage call: whether an insert was
attempted, the input field content while the insert was pending, the input
field content afterwards, and the resulting messages table. -/
structure SendOutcome where
  attempted : Bool
  inputDuringInsert : String
  finalInput : String
  state : MsgState
deriving DecidableEq, Repr

/-- Translation of sendMessage, lines 773-782: bail out when the trimmed
input is empty or no room is active; otherwise clear the input, insert the
message with the anonymous flag stamped from the kind of the active room
at call time, and restore the typed text exactly when the insert fails.
The parameter ok is the oracle for success of the insert. -/
def sendMessage (inputText : String) (activeRoom : Option Room) (userId : String)
    (ok : Bool) (now : Int) (s : MsgState) : SendOutcome :=
  if jsTrim inputText = "" then
    { attempted := false, inputDuringInsert := inputText, finalInput := inputText, state := s }
  else
    match activeRoom with
    | none =>
      { attempted := false, inputDuringInsert := inputText, finalInput := inputText, state := s }
    | some room =>
      let content := inputText
      let s2 :=
        if ok then
          insertMessage s room.id userId content (decide (room.type = RoomType.anonymous)) now
        else s
      { attempted := true, inputDuringInsert := "",
        finalInput := if ok then "" else content, state := s2 }

/-- Translation of purgeChats, lines 1418-1424: delete every message whose
creation time is strictly before the cutoff. -/
def purgeChats (s : MsgState) (cutoff : Int) : MsgState :=
  { s with rows := s.rows.filter (fun m => decide (¬ m.created_at < cutoff)) }

/-- Cascade of deleteRoom, lines 1350-1355 with the on delete cascade of
the schema: every message of the deleted room is removed. -/
def deleteRoomCascade (s : MsgState) (roomId : Nat) : MsgState :=
  { s with rows := s.rows.filter (fun m => decide (¬ m.room_id = roomId)) }

/-- The operations the source ever performs on the messages table. -/
inductive MsgOp
  | send (inputText : String) (activeRoom : Option Room) (userId : String)
      (ok : Bool) (now : Int)
  | purge (cutoff : Int)
  | deleteRoom (roomId : Nat)

/-- One table operation. -/
def applyOp (s : MsgState) : MsgOp → MsgState
  | .send t r u ok now => (sendMessage t r u ok now s).state
  | .purge cutoff => purgeChats s cutoff
  | .deleteRoom roomId => deleteRoomCascade s roomId

/-- A sequence of table operations. -/
def applyOps (s : MsgState) (ops : List MsgOp) : MsgState :=
  ops.foldl applyOp s

/-! ## Initial load (fetchInitial, src/src/App.jsx lines 713-729) -/

/-- The lookback window of the initial load: two days in milliseconds. -/
def lookbackMs : Int := 2 * 24 * 60 * 60 * 1000

/-- Comparison used by the ascending created_at order of the query. -/
def byCreatedAt (a b : Message) : Prop := a.created_at ≤ b.created_at

instance : DecidableRel byCreatedAt :=
  fun a b => inferInstanceAs (Decidable (a.created_at ≤ b.created_at))

instance : IsTotal Message byCreatedAt := ⟨fun a b => le_total a.created_at b.created_at⟩

instance : IsTrans Message byCreatedAt := ⟨fun _ _ _ h1 h2 => le_trans h1 h2⟩

/-- Translation of the message query of fetchInitial, lines 719-726: keep
the messages of the active room created strictly after now minus the
two-day window, order them by creation time ascending, and join the sender
display fields of each. -/
def fetchInitial (rows : List Message) (profilesTable : List Profile)
    (roomId : Nat) (now : Int) : List ChatMsg :=
  let twoDaysAgo := now - lookbackMs
  let kept := rows.filter (fun m => m.room_id == roomId && decide (twoDaysAgo < m.created_at))
  (kept.insertionSort byCreatedAt).map
    (fun m => { msg := m,
                profiles := (singleProfileById profilesTable m.sender_id).map
                  (fun p => { full_name := p.full_name, student_id := p.student_id }) })

/-! ## Session restore (App init, src/src/App.jsx lines 97-115) -/

/-- Parse result of the record persisted under the fixed local key: either
the stored text fails to parse, or it parses to a record whose id field
may be absent. The remaining fields are carried through opaquely. -/
inductive StoredSession
  | malformed
  | record (id : Option String) (name credential avatarRef : String) (isAdmin : Bool)
deriving DecidableEq, Repr

/-- JavaScript truthiness of the id field: absent, null-like and empty
string are falsy. -/
def truthyId : Option String → Bool
  | none => false
  | some s => !(s == "")

/-- Outcome of the init path: the session restored (if any) and what is
left under the local key afterwards. -/
structure RestoreOutcome where
  restored : Option StoredSession
  storageAfter : Option StoredSession
deriving DecidableEq, Repr

/-- Translation of the init effect, lines 97-115: a stored record that
fails to parse throws, and the catch branch removes the stored record; a
parsed record is restored exactly when its id is truthy, and the stored
record is left in place on both branches of that test. -/
def restoreSession (stored : Option StoredSession) : RestoreOutcome :=
  match stored with
  | none => { restored := none, storageAfter := none }
  | some StoredSession.malformed => { restored := none, storageAfter := none }
  | some (StoredSession.record id n c av ad) =>
    if truthyId id then
      { restored := some (StoredSession.record id n c av ad),
        storageAfter := some (StoredSession.record id n c av ad) }
    else
      { restored := none, storageAfter := some (StoredSession.record id n c av ad) }

/-! ## Concrete rows used to instantiate the theorems -/

/-- Example group room. -/
def roomGeneral : Room := { id := 1, name := "General Campus", type := RoomType.group }

/-- Example anonymous room. -/
def roomAnon : Room := { id := 2, name := "Anonymous Hall", type := RoomType.anonymous }

/-- Example message with creation time 1. -/
def msgT1 : Message :=
  { id := 11, room_id := 1, sender_id := "u1", content := "first",
    is_anonymous := false, created_at := 1 }

/-- Example message with creation time 2. -/
def msgT2 : Message :=
  { id := 12, room_id := 1, sender_id := "u1", content := "second",
    is_anonymous := false, created_at := 2 }

/-- Example message with creation time 3. -/
def msgT3 : Message :=
  { id := 13, room_id := 1, sender_id := "u1", content := "third",
    is_anonymous := false, created_at := 3 }

/-- Example message delivered twice by the fan-out. -/
def dupMsg : Message :=
  { id := 7, room_id := 1, sender_id := "u1", content := "hello",
    is_anonymous := false, created_at := 5 }

/-- Message produced by a successful send of hi in the anonymous room. -/
def sentAnonMsg : Message :=
  { id := 0, room_id := 2, sender_id := "u1", content := "hi",
    is_anonymous := true, created_at := 100 }

/-- Message three days old relative to load time 0. -/
def msg3d : Message :=
  { id := 31, room_id := 1, sender_id := "u1", content := "three days",
    is_anonymous := false, created_at := -(3 * 24 * 60 * 60 * 1000) }

/-- Message one day old relative to load time 0. -/
def msg1d : Message :=
  { id := 32, room_id := 1, sender_id := "u1", content := "one day",
    is_anonymous := false, created_at := -(24 * 60 * 60 * 1000) }

/-- Message one hour old relative to load time 0. -/
def msg1h : Message :=
  { id := 33, room_id := 1, sender_id := "u1", content := "one hour",
    is_anonymous := false, created_at := -(60 * 60 * 1000) }

/-! ## Helper lemmas -/

theorem codeLe_total (x y : List Char) : codeLe x y = true ∨ codeLe y x = true := by
  induction x generalizing y with
  | nil => left; rfl
  | cons a as ih =>
    cases y with
    | nil => right; rfl
    | cons b bs =>
      by_cases hab : a < b
      · left; simp [codeLe, hab]
      · by_cases hba : b < a
        · right; simp [codeLe, hba]
        · rcases ih bs with h | h
          · left; simp [codeLe, hab, hba, h]
          · right; simp [codeLe, hab, hba, h]

theorem codeLe_antisymm (x y : List Char) (hxy : codeLe x y = true) (hyx : codeLe y x = true) :
    x = y := by
  induction x generalizing y with
  | nil =>
    cases y with
    | nil => rfl
    | cons b bs => simp [codeLe] at hyx
  | cons a as ih =>
    cases y with
    | nil => simp [codeLe] at hxy
    | cons b bs =>
      by_cases hab : a < b
      · simp [codeLe, lt_asymm hab, hab] at hyx
      · by_cases hba : b < a
        · simp [codeLe, hab, hba] at hxy
        · have hfst : a = b := le_antisymm (not_lt.mp hba) (not_lt.mp hab)
          subst hfst
          simp [codeLe, hab] at hxy hyx
          rw [ih bs hxy hyx]

theorem jsLe_total (a b : String) : jsLe a b = true ∨ jsLe b a = true :=
  codeLe_total a.toList b.toList

theorem jsLe_antisymm (a b : String) (h1 : jsLe a b = true) (h2 : jsLe b a = true) : a = b := by
  have h := codeLe_antisymm a.toList b.toList h1 h2
  cases a; cases b
  exact congrArg String.mk (by simpa [String.toList] using h)

/-! ## Claim theorems -/

/-- C1: the claim states that for an anonymous message the true sender name
is shown only when the viewer is admin AND the reveal toggle is on. The
code diverges: the rendered reveal condition is not-anonymous OR admin OR
toggle, so an admin with the toggle off is shown the true sender name, and
the admin-only reveal toggle has no effect at all on what an admin sees
(the toggle state is read only in a conjunct that the admin flag already
falsifies). This theorem evaluates the embedded render decision at the
failing input: anonymous message, admin viewer, toggle off. -/
theorem C1_reveal_policy_code_eval :
    shouldRevealSender true true false = true ∧
    senderLabel true (some { full_name := "Asha", student_id := "9999999999" }) true false
      = "Asha" ∧
    (∀ toggle : Bool, shouldRevealSender true true toggle = true) := by
  refine ⟨rfl, by decide, ?_⟩
  intro t
  cases t <;> rfl

/-- C8: for a non-blank input and an active room, sendMessage clears the
input before the insert (the input is empty while the insert is pending),
restores the exact typed text when the insert fails while leaving the
table unchanged, and leaves the input cleared when the insert succeeds. -/
theorem C8_send_rollback (inputText : String) (room : Room) (userId : String)
    (now : Int) (s : MsgState) (h : ¬ jsTrim inputText = "") :
    (sendMessage inputText (some room) userId true now s).attempted = true ∧
    (sendMessage inputText (some room) userId true now s).inputDuringInsert = "" ∧
    (sendMessage inputText (some room) userId true now s).finalInput = "" ∧
    (sendMessage inputText (some room) userId false now s).attempted = true ∧
    (sendMessage inputText (some room) userId false now s).inputDuringInsert = "" ∧
    (sendMessage inputText (some room) userId false now s).finalInput = inputText ∧
    (sendMessage inputText (some room) userId false now s).state = s := by
  simp [sendMessage, h]

/-- C8 witness: the rollback theorem applied to a concrete send of hello. -/
theorem C8_send_rollback_witness :
    (sendMessage "hello" (some roomGeneral) "u1" true 0
        { nextId := 0, rows := [] }).finalInput = "" ∧
    (sendMessage "hello" (some roomGeneral) "u1" false 0
        { nextId := 0, rows := [] }).finalInput = "hello" ∧
    (sendMessage "hello" (some roomGeneral) "u1" false 0
        { nextId := 0, rows := [] }).state = { nextId := 0, rows := [] } := by
  have h := C8_send_rollback "hello" roomGeneral "u1" 0 { nextId := 0, rows := [] }
    (by decide)
  exact ⟨h.2.2.1, h.2.2.2.2.2.1, h.2.2.2.2.2.2⟩

/-- C9 counterexample: a stored record that parses but carries no id is
invalid, and the claim says an invalid record is both not restored and
removed from storage. The code removes the stored record only when parsing
throws: for the parsed id-less record the session is not restored but the
record stays in storage. -/
theorem C9_counterexample :
    (restoreSession (some (StoredSession.record none "Asha" "9999999999" "av" false))).restored
      = none ∧
    ¬ (restoreSession
        (some (StoredSession.record none "Asha" "9999999999" "av" false))).storageAfter = none := by
  decide

/-- C9 amended: on load the stored record is parsed; a record that fails to
parse is discarded (not restored, and the stored record is removed); a
parsed record whose id is not truthy is not restored but the stored record
is left in place; a parsed record with a truthy id is restored and kept. -/
theorem C9_session_restore_amended :
    ((restoreSession (some StoredSession.malformed)).restored = none ∧
      (restoreSession (some StoredSession.malformed)).storageAfter = none) ∧
    (∀ (id : Option String) (n c av : String) (ad : Bool), truthyId id = false →
      (restoreSession (some (StoredSession.record id n c av ad))).restored = none ∧
      (restoreSession (some (StoredSession.record id n c av ad))).storageAfter =
        some (StoredSession.record id n c av ad)) ∧
    (∀ (id : Option String) (n c av : String) (ad : Bool), truthyId id = true →
      (restoreSession (some (StoredSession.record id n c av ad))).restored =
        some (StoredSession.record id n c av ad) ∧
      (restoreSession (some (StoredSession.record id n c av ad))).storageAfter =
        some (StoredSession.record id n c av ad)) := by
  refine ⟨⟨rfl, rfl⟩, ?_, ?_⟩ <;>
    · intro id n c av ad h
      simp [restoreSession, h]

/-- C9 witness: the amended theorem applied to a record with a truthy id. -/
theorem C9_session_restore_amended_witness :
    (restoreSession (some (StoredSession.record (some "u1") "Asha" "9999999999" "av" false))).restored
      = some (StoredSession.record (some "u1") "Asha" "9999999999" "av" false) ∧
    (restoreSession (some (StoredSession.record (some "u1") "Asha" "9999999999" "av" false))).storageAfter
      = some (StoredSession.record (some "u1") "Asha" "9999999999" "av" false) :=
  C9_session_restore_amended.2.2 (some "u1") "Asha" "9999999999" "av" false (by decide)

/-- C10: a sendMessage call whose input is empty or all whitespace, or with
no active room, is a no-op: no insert is attempted and the input text and
the messages table are left unchanged. -/
theorem C10_send_guard (inputText : String) (activeRoom : Option Room) (userId : String)
    (ok : Bool) (now : Int) (s : MsgState)
    (h : jsTrim inputText = "" ∨ activeRoom = none) :
    sendMessage inputText activeRoom userId ok now s =
      { attempted := false, inputDuringInsert := inputText,
        finalInput := inputText, state := s } := by
  rcases h with h | h
  · simp [sendMessage, h]
  · subst h
    by_cases ht : jsTrim inputText = "" <;> simp [sendMessage, ht]

/-- C10 witness: the guard theorem applied to an all-whitespace input. -/
theorem C10_send_guard_witness :
    sendMessage "   " (some roomGeneral) "u1" true 0 { nextId := 0, rows := [] } =
      { attempted := false, inputDuringInsert := "   ", finalInput := "   ",
        state := { nextId := 0, rows := [] } } :=
  C10_send_guard "   " (some roomGeneral) "u1" true 0 { nextId := 0, rows := [] }
    (Or.inl (by decide))

/-- C4 counterexample: messages with creation times 1 < 2 < 3 delivered by
the fan-out in the order 2, 1, 3 into an empty cached list render in
delivery order 2, 1, 3 — the claim that the rendered list is still in
ascending creation order is false, because the message handler appends
without sorting or positional insertion. -/
theorem C4_counterexample :
    (deliverAll [] [] [msgT2, msgT1, msgT3]).map (fun c => c.msg.created_at) = [2, 1, 3] ∧
    ¬ ((deliverAll [] [] [msgT2, msgT1, msgT3]).map (fun c => c.msg.created_at)).Sorted
        (fun a b => a ≤ b) := by
  constructor
  · rfl
  · decide

/-- C4 amended: the rendered message list is the previously rendered list
followed by the fan-out deliveries in delivery order, so out-of-order
delivery T2, T1, T3 renders as T2, T1, T3; ascending creation order is
obtained only when the fan-out delivers in ascending order. -/
theorem C4_ordering_delivery_order (profilesTable : List Profile) (cache : List ChatMsg)
    (ms : List Message) :
    (deliverAll profilesTable cache ms).map (fun c => c.msg) =
      cache.map (fun c => c.msg) ++ ms := by
  induction ms generalizing cache with
  | nil => simp [deliverAll]
  | cons m rest ih =>
    show (deliverAll profilesTable (onMessageInsert profilesTable cache m) rest).map
        (fun c => c.msg) = _
    rw [ih]
    simp [onMessageInsert]

/-- C5 counterexample: delivering the same message insert event twice
leaves the cached message list with two entries carrying the same id — the
claim that rooms, messages and profiles are all deduplicated by id is
false, because the message handler (and the profile insert handler)
append unconditionally. -/
theorem C5_counterexample :
    ¬ ((onMessageInsert [] (onMessageInsert [] [] dupMsg) dupMsg).map
        (fun c => c.msg.id)).Nodup ∧
    (onMessageInsert [] (onMessageInsert [] [] dupMsg) dupMsg).length = 2 := by
  constructor
  · decide
  · rfl

/-- C5 amended: only the rooms handler deduplicates by id (delivering the
same room insert twice leaves the cached room list as after one delivery);
the message handler and the profile insert handler append unconditionally,
so a duplicate delivery produces a duplicate entry. -/
theorem C5_merge_idempotence_amended :
    (∀ (cache : List Room) (r : Room),
      onRoomInsert (onRoomInsert cache r) r = onRoomInsert cache r) ∧
    (∀ (profilesTable : List Profile) (cache : List ChatMsg) (m : Message),
      (onMessageInsert profilesTable (onMessageInsert profilesTable cache m) m).map
          (fun c => c.msg) =
        cache.map (fun c => c.msg) ++ [m, m]) ∧
    (∀ (cache : List Profile) (p : Profile),
      onProfileEvent (onProfileEvent cache (ProfileEvent.insert p)) (ProfileEvent.insert p) =
        cache ++ [p, p]) := by
  refine ⟨?_, ?_, ?_⟩
  · intro cache r
    by_cases h : cache.any (fun x => x.id == r.id)
    · simp [onRoomInsert, h]
    · simp [onRoomInsert, h, List.any_append]
  · intro profilesTable cache m
    simp [onMessageInsert]
  · intro cache p
    simp [onProfileEvent]

theorem safeHex_length (c : String) : (safeHex c).length = 12 := by
  unfold safeHex
  have h : ((c.toList.map (fun ch => Nat.toDigits 16 ch.toNat)).flatten.take 12).length ≤ 12 := by
    simp only [List.length_take]
    omega
  show (((c.toList.map (fun ch => Nat.toDigits 16 ch.toNat)).flatten.take 12) ++
      List.replicate _ '0').length = 12
  rw [List.length_append, List.length_replicate]
  omega

theorem handleLogin_of_single_some {rows : List Profile} {c : String} {p : Profile}
    (h : singleByStudentId rows c = some p) (n : String) :
    handleLogin n c rows = (p.id, decide (c = "admin123"), rows) := by
  unfold handleLogin
  rw [h]

theorem handleLogin_of_single_none {rows : List Profile} {c : String}
    (h : singleByStudentId rows c = none) (n : String) :
    handleLogin n c rows =
      (pseudoId c, decide (c = "admin123"), insertProfile rows (createdProfile n c)) := by
  unfold handleLogin
  rw [h]

/-- C2: resolving the same credential twice, with possibly different
display names, yields the same session id; when the exact-single lookup by
student_id finds nothing, the session id is the deterministically derived
pseudo id (12 hex characters from the credential bytes embedded in the
fixed template, proved 12 long), and the profile created for the
credential has role admin exactly when the credential is admin123. -/
theorem C2_deterministic_identity (c n1 n2 : String) (rows : List Profile) :
    (handleLogin n1 c rows).1 = (handleLogin n2 c (handleLogin n1 c rows).2.2).1 ∧
    (singleByStudentId rows c = none → (handleLogin n1 c rows).1 = pseudoId c) ∧
    (safeHex c).length = 12 ∧
    ((createdProfile n1 c).role = Role.admin ↔ c = "admin123") := by
  have hrole : (createdProfile n1 c).role = Role.admin ↔ c = "admin123" := by
    by_cases hc : c = "admin123" <;> simp [createdProfile, hc]
  cases h : singleByStudentId rows c with
  | some p =>
    refine ⟨?_, ?_, safeHex_length c, hrole⟩
    · rw [handleLogin_of_single_some h n1, handleLogin_of_single_some h n2]
    · intro hnone
      exact absurd hnone (Option.some_ne_none p)
  | none =>
    refine ⟨?_, ?_, safeHex_length c, hrole⟩
    · rw [handleLogin_of_single_none h n1]
      show pseudoId c = (handleLogin n2 c (insertProfile rows (createdProfile n1 c))).1
      by_cases hin : rows.any
          (fun q => q.id == (createdProfile n1 c).id ||
            q.student_id == (createdProfile n1 c).student_id) = true
      · have hins : insertProfile rows (createdProfile n1 c) = rows := by
          unfold insertProfile
          rw [if_pos hin]
        rw [hins, handleLogin_of_single_none h n2]
      · have hins : insertProfile rows (createdProfile n1 c) =
            rows ++ [createdProfile n1 c] := by
          unfold insertProfile
          rw [if_neg hin]
        have hfilter : rows.filter (fun p => decide (p.student_id = c)) = [] := by
          rw [List.filter_eq_nil_iff]
          intro q hq
          simp only [decide_eq_true_eq]
          intro hqs
          apply hin
          rw [List.any_eq_true]
          exact ⟨q, hq, by simp [createdProfile, hqs]⟩
        have hsingle : singleByStudentId (rows ++ [createdProfile n1 c]) c =
            some (createdProfile n1 c) := by
          unfold singleByStudentId
          rw [List.filter_append, hfilter]
          simp [createdProfile]
        rw [hins, handleLogin_of_single_some hsingle n2]
        rfl
    · intro _
      rw [handleLogin_of_single_none h n1]

/-- C2 witness: logging in twice with the fresh credential 9999999999 and
the names Asha, then Asha Verma, resolves to the same id both times, the
id is the derived pseudo id, and the concrete derivation produces the
documented hex embedding. -/
theorem C2_deterministic_identity_witness :
    (handleLogin "Asha" "9999999999" []).1 =
      (handleLogin "Asha Verma" "9999999999" (handleLogin "Asha" "9999999999" []).2.2).1 ∧
    (handleLogin "Asha" "9999999999" []).1 = pseudoId "9999999999" ∧
    pseudoId "9999999999" = "00000000-0000-0000-0000-393939393939" := by
  have h := C2_deterministic_identity "9999999999" "Asha" "Asha Verma" []
  exact ⟨h.1, h.2.1 (by decide), by decide⟩

theorem dmRoomName_comm (a b : String) : dmRoomName a b = dmRoomName b a := by
  by_cases hab : jsLe a b = true
  · by_cases hba : jsLe b a = true
    · rw [jsLe_antisymm a b hab hba]
    · simp [dmRoomName, hab, hba]
  · have hba : jsLe b a = true := (jsLe_total a b).resolve_left hab
    simp [dmRoomName, hab, hba]

theorem singleRoomByName_eq_some {rows : List Room} {n : String} {r : Room}
    (h : singleRoomByName rows n = some r) :
    rows.filter (fun x => decide (x.name = n)) = [r] := by
  unfold singleRoomByName at h
  cases hf : rows.filter (fun x => decide (x.name = n)) with
  | nil => rw [hf] at h; simp at h
  | cons x t =>
    cases t with
    | nil =>
      rw [hf] at h
      simp only [Option.some.injEq] at h
      rw [h]
    | cons y t2 => rw [hf] at h; simp at h

theorem singleRoomByName_eq_none {rows : List Room} {n : String}
    (h : singleRoomByName rows n = none)
    (hlen : (rows.filter (fun x => decide (x.name = n))).length ≤ 1) :
    rows.filter (fun x => decide (x.name = n)) = [] := by
  unfold singleRoomByName at h
  cases hf : rows.filter (fun x => decide (x.name = n)) with
  | nil => rfl
  | cons x t =>
    cases t with
    | nil => rw [hf] at h; simp at h
    | cons y t2 =>
      rw [hf] at hlen
      simp only [List.length_cons] at hlen
      omega

/-- C3: when the rooms table holds at most one room under the canonical
name of the pair (a, b), the canonical name is symmetric in the pair, the
first startDM call resolves to a room under that name, a second call with
the ids swapped returns the same room and leaves the table unchanged, and
the table afterwards holds exactly one room under that name. -/
theorem C3_dm_room_idempotent (a b : String) (s : RoomsState)
    (h : (s.rows.filter (fun r => decide (r.name = dmRoomName a b))).length ≤ 1) :
    dmRoomName a b = dmRoomName b a ∧
    (startDM a b s).1.name = dmRoomName a b ∧
    (startDM b a (startDM a b s).2).1 = (startDM a b s).1 ∧
    (startDM b a (startDM a b s).2).2 = (startDM a b s).2 ∧
    ((startDM a b s).2.rows.filter (fun r => decide (r.name = dmRoomName a b))).length = 1 := by
  have hcomm := dmRoomName_comm a b
  cases hs : singleRoomByName s.rows (dmRoomName a b) with
  | some r =>
    have hfil := singleRoomByName_eq_some hs
    have hrname : r.name = dmRoomName a b := by
      have hr : r ∈ s.rows.filter (fun x => decide (x.name = dmRoomName a b)) := by
        rw [hfil]; exact List.mem_singleton_self r
      exact of_decide_eq_true (List.mem_filter.mp hr).2
    refine ⟨hcomm, ?_, ?_, ?_, ?_⟩
    · simp [startDM, hs, hrname]
    · simp [startDM, hs, ← hcomm]
    · simp [startDM, hs, ← hcomm]
    · simp [startDM, hs, hfil]
  | none =>
    have hfil := singleRoomByName_eq_none hs h
    have hnew : singleRoomByName (s.rows ++ [⟨s.nextId, dmRoomName a b, RoomType.dm⟩])
        (dmRoomName a b) = some ⟨s.nextId, dmRoomName a b, RoomType.dm⟩ := by
      unfold singleRoomByName
      rw [List.filter_append, hfil]
      simp
    refine ⟨hcomm, ?_, ?_, ?_, ?_⟩
    · simp [startDM, hs, insertRoom]
    · simp [startDM, hs, insertRoom, ← hcomm, hnew]
    · simp [startDM, hs, insertRoom, ← hcomm, hnew]
    · simp [startDM, hs, insertRoom, List.filter_append, hfil]

/-- C3 witness: opening a direct message between u2 and u1 on an empty
rooms table and then opening it again with the ids swapped returns the
same room without creating a second one. -/
theorem C3_dm_room_idempotent_witness :
    dmRoomName "u2" "u1" = dmRoomName "u1" "u2" ∧
    (startDM "u2" "u1" { nextId := 5, rows := [] }).1.name = dmRoomName "u2" "u1" ∧
    (startDM "u1" "u2" (startDM "u2" "u1" { nextId := 5, rows := [] }).2).1 =
      (startDM "u2" "u1" { nextId := 5, rows := [] }).1 ∧
    (startDM "u1" "u2" (startDM "u2" "u1" { nextId := 5, rows := [] }).2).2 =
      (startDM "u2" "u1" { nextId := 5, rows := [] }).2 ∧
    ((startDM "u2" "u1" { nextId := 5, rows := [] }).2.rows.filter
      (fun r => decide (r.name = dmRoomName "u2" "u1"))).length = 1 :=
  C3_dm_room_idempotent "u2" "u1" { nextId := 5, rows := [] } (by decide)

theorem applyOp_mem (s : MsgState) (op : MsgOp) (m : Message)
    (hm : m ∈ (applyOp s op).rows) :
    m ∈ s.rows ∨
      ∃ (t : String) (room : Room) (u : String) (ok : Bool) (now : Int),
        op = MsgOp.send t (some room) u ok now ∧
        m.is_anonymous = decide (room.type = RoomType.anonymous) := by
  cases op with
  | purge cutoff => exact Or.inl (List.mem_of_mem_filter hm)
  | deleteRoom roomId => exact Or.inl (List.mem_of_mem_filter hm)
  | send t r u ok now =>
    by_cases htrim : jsTrim t = ""
    · exact Or.inl (by simpa [applyOp, sendMessage, htrim] using hm)
    · cases r with
      | none => exact Or.inl (by simpa [applyOp, sendMessage, htrim] using hm)
      | some room =>
        by_cases hok : ok = true
        · subst hok
          simp only [applyOp, sendMessage, htrim, if_false, if_true, ite_true,
            insertMessage, List.mem_append, List.mem_singleton] at hm
          rcases hm with hm | hm
          · exact Or.inl hm
          · refine Or.inr ⟨t, room, u, true, now, rfl, ?_⟩
            rw [hm]
        · have hok2 : ok = false := by
            cases ok
            · rfl
            · exact absurd rfl hok
          subst hok2
          exact Or.inl (by simpa [applyOp, sendMessage, htrim] using hm)

/-- C6: the anonymous flag of a message is a property of the message, not
of the room: over any sequence of the message-table operations the source
performs (sends, admin purges, room deletions with cascade), every message
row present afterwards either was present verbatim before the sequence
(so its flag was never mutated) or was created by one of the send
operations with the flag stamped from the kind of the room that was
active at that call (anonymous kind stamps true, any other kind false). -/
theorem C6_anonymity_immutable (s : MsgState) (ops : List MsgOp) (m : Message)
    (hm : m ∈ (applyOps s ops).rows) :
    m ∈ s.rows ∨
      ∃ (t : String) (room : Room) (u : String) (ok : Bool) (now : Int),
        MsgOp.send t (some room) u ok now ∈ ops ∧
        m.is_anonymous = decide (room.type = RoomType.anonymous) := by
  induction ops generalizing s with
  | nil => exact Or.inl hm
  | cons op rest ih =>
    have hm2 : m ∈ (applyOps (applyOp s op) rest).rows := hm
    rcases ih (applyOp s op) hm2 with hmem | ⟨t, room, u, ok, now, hin, hflag⟩
    · rcases applyOp_mem s op m hmem with hmem2 | ⟨t, room, u, ok, now, heq, hflag⟩
      · exact Or.inl hmem2
      · exact Or.inr ⟨t, room, u, ok, now, heq ▸ List.mem_cons_self op rest, hflag⟩
    · exact Or.inr ⟨t, room, u, ok, now, List.mem_cons_of_mem op hin, hflag⟩

/-- C6 witness: a message sent in the anonymous room is in the table
afterwards, so the theorem yields its provenance: it was stamped
anonymous from the kind of the room at call time. -/
theorem C6_anonymity_immutable_witness :
    sentAnonMsg ∈ ({ nextId := 0, rows := [] } : MsgState).rows ∨
      ∃ (t : String) (room : Room) (u : String) (ok : Bool) (now : Int),
        MsgOp.send t (some room) u ok now ∈
            [MsgOp.send "hi" (some roomAnon) "u1" true 100] ∧
        sentAnonMsg.is_anonymous = decide (room.type = RoomType.anonymous) :=
  C6_anonymity_immutable { nextId := 0, rows := [] }
    [MsgOp.send "hi" (some roomAnon) "u1" true 100] sentAnonMsg (by decide)

theorem map_msg_of_join (f : Message → Option SenderInfo) (l : List Message) :
    (l.map (fun m => ({ msg := m, profiles := f m } : ChatMsg))).map (fun c => c.msg) = l := by
  induction l with
  | nil => rfl
  | cons a t ih => simp only [List.map_cons, ih]

theorem map_created_of_join (f : Message → Option SenderInfo) (l : List Message) :
    (l.map (fun m => ({ msg := m, profiles := f m } : ChatMsg))).map
        (fun c => c.msg.created_at) =
      l.map (fun m => m.created_at) := by
  induction l with
  | nil => rfl
  | cons a t ih => simp only [List.map_cons, ih]

/-- C7: the initial load for a room returns, as a permutation of the
underlying table filter, exactly the messages of that room created
strictly after now minus the two-day lookback window; the returned list is
in ascending creation-time order; each returned message carries the
sender display fields joined by exact-single lookup of the sender id; and
an absent sender renders as Unknown. -/
theorem C7_load_recent (rows : List Message) (profilesTable : List Profile)
    (roomId : Nat) (now : Int) :
    ((fetchInitial rows profilesTable roomId now).map (fun c => c.msg)).Perm
      (rows.filter (fun m => m.room_id == roomId && decide (now - lookbackMs < m.created_at))) ∧
    (∀ m : Message,
      m ∈ (fetchInitial rows profilesTable roomId now).map (fun c => c.msg) ↔
        m ∈ rows ∧ m.room_id = roomId ∧ now - lookbackMs < m.created_at) ∧
    ((fetchInitial rows profilesTable roomId now).map (fun c => c.msg.created_at)).Sorted
      (fun a b => a ≤ b) ∧
    (∀ cmsg ∈ fetchInitial rows profilesTable roomId now,
      cmsg.profiles = (singleProfileById profilesTable cmsg.msg.sender_id).map
        (fun p => { full_name := p.full_name, student_id := p.student_id })) ∧
    (∀ isAdmin showRealNames : Bool, senderLabel false none isAdmin showRealNames = "Unknown") := by
  have hperm : ((fetchInitial rows profilesTable roomId now).map (fun c => c.msg)).Perm
      (rows.filter (fun m => m.room_id == roomId &&
        decide (now - lookbackMs < m.created_at))) := by
    unfold fetchInitial
    rw [map_msg_of_join]
    exact List.perm_insertionSort byCreatedAt _
  refine ⟨hperm, ?_, ?_, ?_, ?_⟩
  · intro m
    rw [hperm.mem_iff, List.mem_filter]
    simp [and_assoc]
  · unfold fetchInitial
    rw [map_created_of_join]
    have hs := List.sorted_insertionSort byCreatedAt
      (rows.filter (fun m => m.room_id == roomId && decide (now - lookbackMs < m.created_at)))
    exact List.pairwise_map.mpr hs
  · intro cmsg hc
    unfold fetchInitial at hc
    rcases List.mem_map.mp hc with ⟨m, _, rfl⟩
    rfl
  · intro isAdmin showRealNames
    rfl

/-- C7 witness: loading a room at time 0 with messages three days, one day
and one hour old keeps exactly the two inside the two-day window, in
ascending creation-time order. -/
theorem C7_load_recent_witness :
    ((fetchInitial [msg3d, msg1d, msg1h] [] 1 0).map (fun c => c.msg)).Perm
      ([msg3d, msg1d, msg1h].filter
        (fun m => m.room_id == 1 && decide ((0 : Int) - lookbackMs < m.created_at))) ∧
    ((fetchInitial [msg3d, msg1d, msg1h] [] 1 0).map (fun c => c.msg.created_at)).Sorted
      (fun a b => a ≤ b) :=
  ⟨(C7_load_recent [msg3d, msg1d, msg1h] [] 1 0).1,
    (C7_load_recent [msg3d, msg1d, msg1h] [] 1 0).2.2.1⟩

end CampusConnect
